import Mathlib

/-
  Verification of the agri-connect order/payment/cart behavior.

  Shallow embedding of:
  * the shopping-cart reducer (CartContext: `cartReducer`),
  * the SQL trigger `update_order_total` recomputing an order's total from
    its order items (orders/order_items/payments DDL script),
  * the payment service (`processPayment`, `updatePaymentStatus`,
    `checkPaymentStatus`, `simulatePaymentCompletion`),
  * the `PaymentProcessor` component's polling timer behavior,
  * the public product listing (`fetchProducts`) together with the
    row-level-security visibility of vendors,
  * the `orders.payment_status` CHECK constraint,
  * the checkout order-item construction (`onSubmit`).

  Monetary amounts (SQL DECIMAL(10,2), JS number) are modelled as rationals;
  quantities as integers; uuid/text ids as strings.  Timestamps
  (`created_at`/`updated_at`, `Date.now()`) are irrelevant to the claims and
  are either omitted or taken as explicit parameters.  Fallible remote calls
  are modelled on their failure-free path unless a claim is about the error
  path, in which case the failure is an explicit boolean/Option parameter.
-/

namespace AgriConnect

/-! ### Cart model (CartContext source: `cartReducer`) -/

/-- A cart line item (interface `CartItem`). -/
structure CartItem where
  id : String
  productId : String
  name : String
  price : ℚ
  unit : String
  quantity : ℤ
  image_url : Option String
  vendorId : String
  vendorName : String
  maxStock : ℤ
  deriving Repr, DecidableEq

/-- The cart state (interface `CartState`). -/
structure CartState where
  items : List CartItem
  total : ℚ
  itemCount : ℤ
  deriving Repr, DecidableEq

/-- Payload of `ADD_ITEM`: a `CartItem` without `id` and with an optional
`quantity` (source: `Omit<CartItem, 'id' | 'quantity'> & { quantity?: number }`). -/
structure AddItemPayload where
  productId : String
  name : String
  price : ℚ
  unit : String
  image_url : Option String
  vendorId : String
  vendorName : String
  maxStock : ℤ
  quantity : Option ℤ
  deriving Repr, DecidableEq

/-- Cart actions (`CartAction`).  `ADD_ITEM` generates a fresh line id from
`Date.now()`; the generated id is passed explicitly as `freshId`. -/
inductive CartAction where
  | addItem (payload : AddItemPayload) (freshId : String)
  | removeItem (id : String)
  | updateQuantity (id : String) (quantity : ℤ)
  | clearCart
  | loadCart (payload : List CartItem)
  deriving Repr, DecidableEq

/-- JS `q || 1`: `undefined` and `0` are falsy, every other number is kept. -/
def jsOrOne : Option ℤ → ℤ
  | none => 1
  | some q => if q = 0 then 1 else q

/-- `newItems.reduce((sum, item) => sum + item.price * item.quantity, 0)`. -/
def cartTotal (items : List CartItem) : ℚ :=
  items.foldl (fun sum item => sum + item.price * (item.quantity : ℚ)) 0

/-- `newItems.reduce((sum, item) => sum + item.quantity, 0)`. -/
def cartCount (items : List CartItem) : ℤ :=
  items.foldl (fun sum item => sum + item.quantity) 0

/-- Replace the quantity of the first item with the given product id
(source: `findIndex` on `productId` followed by an index-equality `map`). -/
def setFirstQuantity : List CartItem → String → ℤ → List CartItem
  | [], _, _ => []
  | item :: rest, pid, q =>
    if item.productId == pid then { item with quantity := q } :: rest
    else item :: setFirstQuantity rest pid q

/-- The `REMOVE_ITEM` branch, also reached from `UPDATE_QUANTITY` with a
non-positive quantity (source recurses into the reducer with `REMOVE_ITEM`). -/
def removeItemCase (state : CartState) (id : String) : CartState :=
  let newItems := state.items.filter (fun item => item.id != id)
  { items := newItems, total := cartTotal newItems, itemCount := cartCount newItems }

/-- `cartReducer` from the cart context.  The stock-limit branches show a
toast and return the state unchanged. -/
def cartReducer (state : CartState) : CartAction → CartState
  | .addItem payload freshId =>
    match state.items.find? (fun item => item.productId == payload.productId) with
    | some existingItem =>
      let newQuantity := existingItem.quantity + jsOrOne payload.quantity
      if newQuantity > payload.maxStock then
        state
      else
        let newItems := setFirstQuantity state.items payload.productId newQuantity
        { items := newItems, total := cartTotal newItems, itemCount := cartCount newItems }
    | none =>
      let quantity := jsOrOne payload.quantity
      if quantity > payload.maxStock then
        state
      else
        let newItem : CartItem :=
          { id := freshId, productId := payload.productId, name := payload.name,
            price := payload.price, unit := payload.unit, quantity := quantity,
            image_url := payload.image_url, vendorId := payload.vendorId,
            vendorName := payload.vendorName, maxStock := payload.maxStock }
        let newItems := state.items ++ [newItem]
        { items := newItems, total := cartTotal newItems, itemCount := cartCount newItems }
  | .removeItem id => removeItemCase state id
  | .updateQuantity id quantity =>
    if quantity ≤ 0 then
      removeItemCase state id
    else
      let newItems := state.items.map (fun item =>
        if item.id == id then
          if quantity > item.maxStock then item else { item with quantity := quantity }
        else item)
      { items := newItems, total := cartTotal newItems, itemCount := cartCount newItems }
  | .clearCart => { items := [], total := 0, itemCount := 0 }
  | .loadCart payload =>
    { items := payload, total := cartTotal payload, itemCount := cartCount payload }

/-- The initial cart state passed to `useReducer`. -/
def initialCartState : CartState := { items := [], total := 0, itemCount := 0 }

/-- Run a sequence of cart actions. -/
def runCart (state : CartState) (actions : List CartAction) : CartState :=
  actions.foldl cartReducer state

/-- The cart-state invariant: the cached `total` and `itemCount` agree with
the sums over the items. -/
def cartStateConsistent (state : CartState) : Prop :=
  state.total = (state.items.map (fun item => item.price * (item.quantity : ℚ))).sum ∧
  state.itemCount = (state.items.map (fun item => item.quantity)).sum

theorem foldl_add_eq_sum {α β : Type} [AddCommMonoid β] (f : α → β) :
    ∀ (l : List α) (a : β), l.foldl (fun sum x => sum + f x) a = a + (l.map f).sum
  | [], a => by simp
  | x :: l, a => by
    simp [foldl_add_eq_sum f l (a + f x), add_assoc]

theorem cartTotal_eq_sum (items : List CartItem) :
    cartTotal items = (items.map (fun item => item.price * (item.quantity : ℚ))).sum := by
  simpa [cartTotal] using foldl_add_eq_sum (fun item : CartItem => item.price * (item.quantity : ℚ)) items 0

theorem cartCount_eq_sum (items : List CartItem) :
    cartCount items = (items.map (fun item => item.quantity)).sum := by
  simpa [cartCount] using foldl_add_eq_sum (fun item : CartItem => item.quantity) items 0

theorem consistent_of_recomputed (items : List CartItem) :
    cartStateConsistent
      { items := items, total := cartTotal items, itemCount := cartCount items } := by
  exact ⟨cartTotal_eq_sum items, cartCount_eq_sum items⟩

theorem cartReducer_preserves_consistent (state : CartState) (action : CartAction)
    (h : cartStateConsistent state) : cartStateConsistent (cartReducer state action) := by
  cases action with
  | addItem payload freshId =>
    simp only [cartReducer]
    cases state.items.find? (fun item => item.productId == payload.productId) with
    | some existingItem =>
      by_cases hq : existingItem.quantity + jsOrOne payload.quantity > payload.maxStock
      · simpa [hq] using h
      · simpa [hq] using consistent_of_recomputed
          (setFirstQuantity state.items payload.productId
            (existingItem.quantity + jsOrOne payload.quantity))
    | none =>
      by_cases hq : jsOrOne payload.quantity > payload.maxStock
      · simpa [hq] using h
      · simpa [hq] using consistent_of_recomputed
          (state.items ++
            [{ id := freshId, productId := payload.productId, name := payload.name,
               price := payload.price, unit := payload.unit,
               quantity := jsOrOne payload.quantity, image_url := payload.image_url,
               vendorId := payload.vendorId, vendorName := payload.vendorName,
               maxStock := payload.maxStock }])
  | removeItem id => exact consistent_of_recomputed _
  | updateQuantity id quantity =>
    by_cases hq : quantity ≤ 0
    · simp only [cartReducer, if_pos hq]
      exact consistent_of_recomputed _
    · simp only [cartReducer, if_neg hq]
      exact consistent_of_recomputed _
  | clearCart => exact ⟨rfl, rfl⟩
  | loadCart payload => exact consistent_of_recomputed _

theorem runCart_consistent (actions : List CartAction) :
    ∀ (state : CartState), cartStateConsistent state →
      cartStateConsistent (runCart state actions) := by
  induction actions with
  | nil => exact fun state h => h
  | cons action rest ih =>
    intro state h
    exact ih (cartReducer state action) (cartReducer_preserves_consistent state action h)

/-- Claim C9: every cart state reachable from the empty cart by any sequence
of `ADD_ITEM`, `REMOVE_ITEM`, `UPDATE_QUANTITY`, `CLEAR_CART`, `LOAD_CART`
actions has `total` equal to the sum of `price * quantity` over its items and
`itemCount` equal to the sum of its items' quantities. -/
theorem cart_totals_invariant (actions : List CartAction) :
    cartStateConsistent (runCart initialCartState actions) :=
  runCart_consistent actions initialCartState ⟨rfl, rfl⟩

/-! ### Order total aggregation (SQL trigger `update_order_total`)

The trigger body is

    UPDATE public.orders
    SET total_amount = (SELECT COALESCE(SUM(subtotal), 0) + delivery_fee
                        FROM public.order_items
                        WHERE order_id = COALESCE(NEW.order_id, OLD.order_id))
    WHERE id = COALESCE(NEW.order_id, OLD.order_id);

fired AFTER INSERT (OLD is NULL), AFTER UPDATE (both non-NULL, so the
COALESCE picks NEW.order_id), and AFTER DELETE (NEW is NULL) on
order_items, FOR EACH ROW. -/

/-- A row of `public.orders` (the columns the trigger touches). -/
structure OrderRow where
  id : String
  totalAmount : ℚ
  deliveryFee : ℚ
  deriving Repr, DecidableEq

/-- A row of `public.order_items`. -/
structure OrderItemRow where
  id : String
  orderId : String
  quantity : ℤ
  unitPrice : ℚ
  subtotal : ℚ
  deriving Repr, DecidableEq

/-- The orders/order_items tables. -/
structure OrdersDb where
  orders : List OrderRow
  items : List OrderItemRow
  deriving Repr, DecidableEq

/-- `SELECT COALESCE(SUM(subtotal), 0) FROM order_items WHERE order_id = X`. -/
def sumSubtotals (items : List OrderItemRow) (orderId : String) : ℚ :=
  ((items.filter (fun it => it.orderId == orderId)).map (fun it => it.subtotal)).sum

/-- The trigger function `update_order_total`, applied with the recompute
target `COALESCE(NEW.order_id, OLD.order_id)` already resolved. -/
def update_order_total (db : OrdersDb) (orderId : String) : OrdersDb :=
  { db with orders := db.orders.map (fun o =>
      if o.id == orderId then
        { o with totalAmount := sumSubtotals db.items orderId + o.deliveryFee }
      else o) }

/-- The SET clause of an UPDATE on `order_items` (all non-key columns,
including `order_id`, which SQL permits updating). -/
structure ItemUpdateSet where
  orderId : String
  quantity : ℤ
  unitPrice : ℚ
  subtotal : ℚ
  deriving Repr, DecidableEq

/-- A single-row mutation of `order_items` (by primary key for update and
delete, as the application issues them). -/
inductive ItemMutation where
  | insert (row : OrderItemRow)
  | update (id : String) (upd : ItemUpdateSet)
  | delete (id : String)
  deriving Repr, DecidableEq

/-- Apply an item mutation followed by the AFTER trigger.  A mutation that
matches no row fires no trigger.  On UPDATE the trigger recomputes
`NEW.order_id` only; on DELETE it recomputes `OLD.order_id`. -/
def applyItemMutation (db : OrdersDb) : ItemMutation → OrdersDb
  | .insert row =>
    let db1 : OrdersDb := { db with items := db.items ++ [row] }
    update_order_total db1 row.orderId
  | .update id upd =>
    match db.items.find? (fun it => it.id == id) with
    | none => db
    | some _ =>
      let db1 : OrdersDb := { db with items := db.items.map (fun it =>
        if it.id == id then
          { it with orderId := upd.orderId, quantity := upd.quantity,
                    unitPrice := upd.unitPrice, subtotal := upd.subtotal }
        else it) }
      update_order_total db1 upd.orderId
  | .delete id =>
    match db.items.find? (fun it => it.id == id) with
    | none => db
    | some old =>
      let db1 : OrdersDb := { db with items := db.items.filter (fun it => it.id != id) }
      update_order_total db1 old.orderId

/-- The spec invariant at one order:
`total_amount = Σ(order_item.subtotal) + delivery_fee`. -/
def orderTotalInvariantAt (db : OrdersDb) (orderId : String) : Prop :=
  ∀ o ∈ db.orders, o.id = orderId →
    o.totalAmount = sumSubtotals db.items orderId + o.deliveryFee

/-- The mutation is a mutation of order `orderId`'s items that leaves the
touched item (if any) attached to `orderId`: inserts insert into it, updates
target one of its items and do not change `order_id`, deletes delete one of
its items. -/
def mutatesWithin (db : OrdersDb) (orderId : String) : ItemMutation → Prop
  | .insert row => row.orderId = orderId
  | .update id upd =>
    upd.orderId = orderId ∧ (∃ it ∈ db.items, it.id = id) ∧
      ∀ it ∈ db.items, it.id = id → it.orderId = orderId
  | .delete id =>
    (∃ it ∈ db.items, it.id = id) ∧
      ∀ it ∈ db.items, it.id = id → it.orderId = orderId

theorem update_order_total_establishes (db : OrdersDb) (orderId : String) :
    orderTotalInvariantAt (update_order_total db orderId) orderId := by
  intro o ho hid
  have hitems : (update_order_total db orderId).items = db.items := rfl
  rw [hitems]
  simp only [update_order_total, List.mem_map] at ho
  obtain ⟨o₀, _, rfl⟩ := ho
  by_cases h : o₀.id == orderId
  · rw [if_pos h]
  · rw [if_neg h] at hid ⊢
    rw [beq_iff_eq] at h
    exact absurd hid h

/-- Claim C1 (amended): after any insert, delete, or `order_id`-preserving
update of one of an order's items, the trigger leaves the order's
`total_amount` equal to the sum of its remaining items' subtotals plus its
`delivery_fee`.  (An update that moves an item to a different order
recomputes only the destination order; see the counterexample.) -/
theorem order_total_recompute (db : OrdersDb) (orderId : String) (m : ItemMutation)
    (hm : mutatesWithin db orderId m) :
    orderTotalInvariantAt (applyItemMutation db m) orderId := by
  cases m with
  | insert row =>
    simp only [applyItemMutation]
    rw [show row.orderId = orderId from hm]
    exact update_order_total_establishes _ _
  | update id upd =>
    obtain ⟨h1, ⟨it, hmem, hid⟩, _⟩ := hm
    simp only [applyItemMutation]
    cases hfind : db.items.find? (fun x => x.id == id) with
    | none =>
      exfalso
      have : (db.items.find? (fun x => x.id == id)).isSome := by
        rw [List.find?_isSome]
        exact ⟨it, hmem, by simp [hid]⟩
      rw [hfind] at this
      simp at this
    | some hit =>
      rw [h1] at *
      exact update_order_total_establishes _ _
  | delete id =>
    obtain ⟨⟨it, hmem, hid⟩, hall⟩ := hm
    simp only [applyItemMutation]
    cases hfind : db.items.find? (fun x => x.id == id) with
    | none =>
      exfalso
      have : (db.items.find? (fun x => x.id == id)).isSome := by
        rw [List.find?_isSome]
        exact ⟨it, hmem, by simp [hid]⟩
      rw [hfind] at this
      simp at this
    | some old =>
      have hold : old.orderId = orderId := by
        have h1 := List.mem_of_find?_eq_some hfind
        have h2 := List.find?_some hfind
        rw [beq_iff_eq] at h2
        exact hall old h1 h2
      show orderTotalInvariantAt
        (update_order_total
          { orders := db.orders, items := db.items.filter (fun it => it.id != id) }
          old.orderId) orderId
      rw [hold]
      exact update_order_total_establishes _ _

/-- Witness for `order_total_recompute`, realizing the spec example: an order
with delivery fee 5.00 holding one item of subtotal 10.00 receives a second
item of subtotal 15.00; the recomputed `total_amount` is 30.00. -/
def exOrderDb : OrdersDb :=
  { orders := [{ id := "ord", totalAmount := 15, deliveryFee := 5 }],
    items := [{ id := "a", orderId := "ord", quantity := 2, unitPrice := 5, subtotal := 10 }] }

/-- The second item insert of the spec example. -/
def exInsertSecond : ItemMutation :=
  .insert { id := "b", orderId := "ord", quantity := 3, unitPrice := 5, subtotal := 15 }

theorem order_total_recompute_witness :
    mutatesWithin exOrderDb "ord" exInsertSecond ∧
    orderTotalInvariantAt (applyItemMutation exOrderDb exInsertSecond) "ord" ∧
    (applyItemMutation exOrderDb exInsertSecond).orders =
      [{ id := "ord", totalAmount := 30, deliveryFee := 5 }] :=
  ⟨rfl, order_total_recompute exOrderDb "ord" exInsertSecond rfl, by
    norm_num [applyItemMutation, exOrderDb, exInsertSecond, update_order_total, sumSubtotals]⟩

/-- The database of the reparenting counterexample: order `o1` owns the one
item (subtotal 10); both totals satisfy the invariant beforehand. -/
def reparentDb : OrdersDb :=
  { orders := [{ id := "o1", totalAmount := 10, deliveryFee := 0 },
               { id := "o2", totalAmount := 0, deliveryFee := 0 }],
    items := [{ id := "i1", orderId := "o1", quantity := 1, unitPrice := 10, subtotal := 10 }] }

/-- The UPDATE that moves item `i1` from order `o1` to order `o2`. -/
def reparentMut : ItemMutation :=
  .update "i1" { orderId := "o2", quantity := 1, unitPrice := 10, subtotal := 10 }

/-- Counterexample to claim C1 as stated: an UPDATE of one of order `o1`'s
items (changing its `order_id` to `o2`) leaves `o1.total_amount = 10` even
though `o1` has no remaining items and `delivery_fee = 0`; the trigger only
recomputed `o2`. -/
theorem order_total_reparent_cex :
    (applyItemMutation reparentDb reparentMut).orders =
      [{ id := "o1", totalAmount := 10, deliveryFee := 0 },
       { id := "o2", totalAmount := 10, deliveryFee := 0 }] ∧
    sumSubtotals (applyItemMutation reparentDb reparentMut).items "o1" = 0 ∧
    ¬ orderTotalInvariantAt (applyItemMutation reparentDb reparentMut) "o1" := by
  have horders : (applyItemMutation reparentDb reparentMut).orders =
      [{ id := "o1", totalAmount := 10, deliveryFee := 0 },
       { id := "o2", totalAmount := 10, deliveryFee := 0 }] := by
    norm_num [applyItemMutation, reparentDb, reparentMut, update_order_total, sumSubtotals]
  have hsum : sumSubtotals (applyItemMutation reparentDb reparentMut).items "o1" = 0 := by
    decide
  refine ⟨horders, hsum, ?_⟩
  intro hinv
  have h10 := hinv { id := "o1", totalAmount := 10, deliveryFee := 0 }
      (by rw [horders]; exact List.mem_cons_self _ _) rfl
  rw [hsum] at h10
  norm_num at h10

/-! ### Payment service (`paymentService`: `processPayment`,
`updatePaymentStatus`, `checkPaymentStatus`, `simulatePaymentCompletion`)

The remote database is modelled as explicit state (`PayDb`): the `payments`
table and the `payment_status` column of the `orders` table.  Row ids that
the backend generates (`gen_random_uuid()`) and clock reads (`Date.now()`)
are explicit parameters.  The failure-free execution of each service call is
modelled; `checkPaymentStatus`, whose claim is about its error path, takes
the read outcome as an explicit flag. -/

/-- The payment/order status union type
`'pending' | 'completed' | 'failed' | 'cancelled'`. -/
inductive PayStatus where
  | pending
  | completed
  | failed
  | cancelled
  deriving Repr, DecidableEq

/-- The terminal statuses of §4.2 of the spec. -/
def PayStatus.isTerminal : PayStatus → Bool
  | .pending => false
  | .completed => true
  | .failed => true
  | .cancelled => true

/-- The payment method union type `'orange_money' | 'afrimoney' | 'stripe'`. -/
inductive PaymentMethod where
  | orange_money
  | afrimoney
  | stripe
  deriving Repr, DecidableEq

/-- `PaymentRequest.customerInfo`. -/
structure CustomerInfo where
  name : String
  email : String
  phone : String
  deriving Repr, DecidableEq

/-- Interface `PaymentRequest` (metadata omitted: opaque to every claim). -/
structure PaymentRequest where
  orderId : String
  amount : ℚ
  currency : String
  paymentMethod : PaymentMethod
  customerInfo : CustomerInfo
  deriving Repr, DecidableEq

/-- A row of `public.payments` (the columns the service reads or writes). -/
structure PaymentRow where
  id : String
  order_id : String
  payment_method : PaymentMethod
  amount : ℚ
  currency : String
  status : PayStatus
  transaction_id : Option String
  customer_name : String
  customer_email : String
  customer_phone : String
  deriving Repr, DecidableEq

/-- Interface `PaymentResponse`. -/
structure PaymentResponse where
  success : Bool
  paymentId : Option String
  redirectUrl : Option String
  message : String
  error : Option String
  deriving Repr, DecidableEq

/-- Interface `PaymentStatus` (the result of `checkPaymentStatus`; the
`updatedAt` timestamp is omitted). -/
structure PaymentStatus where
  status : PayStatus
  transactionId : Option String
  message : String
  deriving Repr, DecidableEq

/-- The backend state the payment service touches: the payments table and
the `payment_status` column of orders, indexed by order id. -/
structure PayDb where
  payments : List PaymentRow
  orderPaymentStatus : String → PayStatus

/-- `updateOrderPaymentStatus`: set the parent order's `payment_status`. -/
def updateOrderPaymentStatus (db : PayDb) (orderId : String) (paymentStatus : PayStatus) :
    PayDb :=
  { db with orderPaymentStatus := fun oid =>
      if oid = orderId then paymentStatus else db.orderPaymentStatus oid }

/-- The payment row inserted by each `process*Payment` method: status
`'pending'`, no transaction id, the branch's `payment_method` literal, and
the other fields copied from the request. -/
def insertedPaymentRow (request : PaymentRequest) (method : PaymentMethod)
    (freshId : String) : PaymentRow :=
  { id := freshId, order_id := request.orderId,
    payment_method := method, amount := request.amount,
    currency := request.currency, status := .pending, transaction_id := none,
    customer_name := request.customerInfo.name,
    customer_email := request.customerInfo.email,
    customer_phone := request.customerInfo.phone }

/-- `processOrangeMoneyPayment`: insert a pending payment row, set the
order's `payment_status` to pending, answer success without a redirect.
A rejected insert (duplicate primary key) takes the catch branch. -/
def processOrangeMoneyPayment (db : PayDb) (request : PaymentRequest) (freshId : String) :
    PayDb × PaymentResponse :=
  if db.payments.any (fun p => p.id == freshId) then
    (db, { success := false, paymentId := none, redirectUrl := none,
           message := "Failed to initiate Orange Money payment",
           error := some "duplicate key value violates unique constraint" })
  else
    let payment := insertedPaymentRow request .orange_money freshId
    let db1 : PayDb := { db with payments := db.payments ++ [payment] }
    let db2 := updateOrderPaymentStatus db1 request.orderId .pending
    (db2, { success := true, paymentId := some payment.id, redirectUrl := none,
            message := "Orange Money payment initiated. Please dial the USSD code to complete payment",
            error := none })

/-- `processAfriMoneyPayment`: same flow as Orange Money. -/
def processAfriMoneyPayment (db : PayDb) (request : PaymentRequest) (freshId : String) :
    PayDb × PaymentResponse :=
  if db.payments.any (fun p => p.id == freshId) then
    (db, { success := false, paymentId := none, redirectUrl := none,
           message := "Failed to initiate AfriMoney payment",
           error := some "duplicate key value violates unique constraint" })
  else
    let payment := insertedPaymentRow request .afrimoney freshId
    let db1 : PayDb := { db with payments := db.payments ++ [payment] }
    let db2 := updateOrderPaymentStatus db1 request.orderId .pending
    (db2, { success := true, paymentId := some payment.id, redirectUrl := none,
            message := "AfriMoney payment initiated. Please check your phone for payment instructions.",
            error := none })

/-- `processStripePayment`: same flow, but the response carries
`redirectUrl: /payment/stripe/<paymentId>`. -/
def processStripePayment (db : PayDb) (request : PaymentRequest) (freshId : String) :
    PayDb × PaymentResponse :=
  if db.payments.any (fun p => p.id == freshId) then
    (db, { success := false, paymentId := none, redirectUrl := none,
           message := "Failed to initiate Stripe payment",
           error := some "duplicate key value violates unique constraint" })
  else
    let payment := insertedPaymentRow request .stripe freshId
    let db1 : PayDb := { db with payments := db.payments ++ [payment] }
    let db2 := updateOrderPaymentStatus db1 request.orderId .pending
    (db2, { success := true, paymentId := some payment.id,
            redirectUrl := some ("/payment/stripe/" ++ payment.id),
            message := "Redirecting to Stripe checkout...",
            error := none })

/-- `processPayment`: dispatch on the payment method.  The TS default branch
is unreachable for the typed method union. -/
def processPayment (db : PayDb) (request : PaymentRequest) (freshId : String) :
    PayDb × PaymentResponse :=
  match request.paymentMethod with
  | .orange_money => processOrangeMoneyPayment db request freshId
  | .afrimoney => processAfriMoneyPayment db request freshId
  | .stripe => processStripePayment db request freshId

/-- JS `if (transactionId) updateData.transaction_id = transactionId`:
the column is written only for a truthy (non-undefined, non-empty) value. -/
def transactionIdUpdate (transactionId : Option String) (old : Option String) :
    Option String :=
  match transactionId with
  | none => old
  | some t => if t = "" then old else some t

/-- The per-row effect of the payments-table UPDATE issued by
`updatePaymentStatus`: the row with the targeted id receives the new status
(and optionally a transaction id); other rows are untouched. -/
def statusUpdateFn (status : PayStatus) (transactionId : Option String)
    (paymentId : String) (p : PaymentRow) : PaymentRow :=
  if p.id == paymentId then
    { p with status := status,
             transaction_id := transactionIdUpdate transactionId p.transaction_id }
  else p

/-- `updatePaymentStatus`: unconditionally set the payment's status (and
optionally its transaction id), then look the payment up and mirror the
status onto its parent order.  The lookup's error is not checked in the
source (`const { data: payment } = ...`), so a missing row skips the order
update and the call still returns `true`. -/
def updatePaymentStatus (db : PayDb) (paymentId : String) (status : PayStatus)
    (transactionId : Option String) : PayDb × Bool :=
  let db1 : PayDb :=
    { db with payments := db.payments.map (statusUpdateFn status transactionId paymentId) }
  match db1.payments.find? (fun p => p.id == paymentId) with
  | some payment => (updateOrderPaymentStatus db1 payment.order_id status, true)
  | none => (db1, true)

/-- `simulatePaymentCompletion`: a completed or failed terminal update with a
clock-generated transaction id on success. -/
def simulatePaymentCompletion (db : PayDb) (paymentId : String) (success : Bool)
    (now : Nat) : PayDb × Bool :=
  let status : PayStatus := if success then .completed else .failed
  let transactionId : Option String :=
    if success then some ("txn_" ++ toString now) else none
  updatePaymentStatus db paymentId status transactionId

/-- `getStatusMessage`. -/
def getStatusMessage : PayStatus → String
  | .pending => "Payment is being processed"
  | .completed => "Payment completed successfully"
  | .failed => "Payment failed"
  | .cancelled => "Payment was cancelled"

/-- `checkPaymentStatus`: read the payment row; on any read failure (modelled
by `lookupFails`, covering transient errors) or a missing row (`.single()`
errors, which the source rethrows) the catch branch answers status
`'failed'`.  Total by construction: every input yields a `PaymentStatus`. -/
def checkPaymentStatus (db : PayDb) (paymentId : String) (lookupFails : Bool) :
    PaymentStatus :=
  if lookupFails then
    { status := .failed, transactionId := none,
      message := "Failed to check payment status" }
  else
    match db.payments.find? (fun p => p.id == paymentId) with
    | some payment =>
      { status := payment.status, transactionId := payment.transaction_id,
        message := getStatusMessage payment.status }
    | none =>
      { status := .failed, transactionId := none,
        message := "Failed to check payment status" }

/-- The state-changing operations of the payment service. -/
inductive PayOp where
  | process (request : PaymentRequest) (freshId : String)
  | update (paymentId : String) (status : PayStatus) (transactionId : Option String)
  | simulate (paymentId : String) (success : Bool) (now : Nat)
  deriving Repr, DecidableEq

/-- One payment-service call, state part. -/
def payStep (db : PayDb) : PayOp → PayDb
  | .process request freshId => (processPayment db request freshId).1
  | .update paymentId status transactionId =>
    (updatePaymentStatus db paymentId status transactionId).1
  | .simulate paymentId success now =>
    (simulatePaymentCompletion db paymentId success now).1

/-- Run a sequence of payment-service calls. -/
def runPay (db : PayDb) (ops : List PayOp) : PayDb :=
  ops.foldl payStep db

/-! Shared concrete instances for witnesses and counterexamples. -/

/-- A backend state with no payments and all orders pending. -/
def payDb0 : PayDb := { payments := [], orderPaymentStatus := fun _ => .pending }

/-- An Orange Money payment request for order `order1`. -/
def orangeReq : PaymentRequest :=
  { orderId := "order1", amount := 100, currency := "SLL",
    paymentMethod := .orange_money,
    customerInfo := { name := "Abu", email := "abu@example.com", phone := "07712345" } }

/-- The same request paid by card. -/
def stripeReq : PaymentRequest := { orangeReq with paymentMethod := .stripe }

/-- A payment row already in the terminal state `completed`. -/
def completedRow : PaymentRow :=
  { id := "pay9", order_id := "order1", payment_method := .orange_money,
    amount := 100, currency := "SLL", status := .completed,
    transaction_id := some "txn_1", customer_name := "Abu",
    customer_email := "abu@example.com", customer_phone := "07712345" }

/-- A backend holding exactly the completed payment. -/
def termDb : PayDb :=
  { payments := [completedRow], orderPaymentStatus := fun _ => .completed }

/-- Counterexample to claim C2 as stated: starting from an empty backend, the
service calls process(order1)/update(completed)/update(pending) first put
payment `pay1` into the terminal state `completed` and then move it back out
to `pending`; `updatePaymentStatus` has no terminal-state guard. -/
theorem payment_terminal_exit_cex :
    PayStatus.isTerminal .completed = true ∧
    ((runPay payDb0 [.process orangeReq "pay1",
        .update "pay1" .completed none]).payments.find?
      (fun p => p.id == "pay1")).map (fun p => p.status) = some .completed ∧
    ((runPay payDb0 [.process orangeReq "pay1", .update "pay1" .completed none,
        .update "pay1" .pending none]).payments.find?
      (fun p => p.id == "pay1")).map (fun p => p.status) = some .pending := by
  refine ⟨rfl, rfl, rfl⟩

theorem statusUpdateFn_preserves_id (status : PayStatus) (transactionId : Option String)
    (paymentId : String) (p : PaymentRow) :
    (statusUpdateFn status transactionId paymentId p).id = p.id := by
  by_cases hc : p.id == paymentId <;> simp [statusUpdateFn, hc]

theorem statusUpdateFn_preserves_order (status : PayStatus) (transactionId : Option String)
    (paymentId : String) (p : PaymentRow) :
    (statusUpdateFn status transactionId paymentId p).order_id = p.order_id := by
  by_cases hc : p.id == paymentId <;> simp [statusUpdateFn, hc]

theorem statusUpdateFn_eq_self (status : PayStatus) (transactionId : Option String)
    (paymentId : String) (p : PaymentRow) (h : (p.id == paymentId) = false) :
    statusUpdateFn status transactionId paymentId p = p := by
  simp [statusUpdateFn, h]

theorem updatePaymentStatus_payments_eq (db : PayDb) (paymentId : String)
    (status : PayStatus) (transactionId : Option String) :
    (updatePaymentStatus db paymentId status transactionId).1.payments =
      db.payments.map (statusUpdateFn status transactionId paymentId) := by
  simp only [updatePaymentStatus]
  split <;> rfl

theorem updatePaymentStatus_orderStatus (db : PayDb) (paymentId : String)
    (status : PayStatus) (transactionId : Option String) :
    (updatePaymentStatus db paymentId status transactionId).1.orderPaymentStatus =
      match (db.payments.map (statusUpdateFn status transactionId paymentId)).find?
          (fun p => p.id == paymentId) with
      | some payment =>
        fun oid => if oid = payment.order_id then status else db.orderPaymentStatus oid
      | none => db.orderPaymentStatus := by
  cases hfind : (db.payments.map (statusUpdateFn status transactionId paymentId)).find?
      (fun p => p.id == paymentId) <;>
    simp only [updatePaymentStatus, hfind, updateOrderPaymentStatus]

/-- Claim C2 (amended): `updatePaymentStatus` writes the requested status
unconditionally.  For every existing payment, whatever its current status
(terminal included), after the call its status is the requested one, so a
terminal payment can be moved to any status (in particular back to
`pending`) by a later service call; terminality is not enforced. -/
theorem updatePaymentStatus_overwrites (db : PayDb) (paymentId : String)
    (status : PayStatus) (transactionId : Option String)
    (h : (db.payments.find? (fun p => p.id == paymentId)).isSome) :
    ((updatePaymentStatus db paymentId status transactionId).1.payments.find?
      (fun p => p.id == paymentId)).map (fun p => p.status) = some status := by
  obtain ⟨q, hq⟩ := Option.isSome_iff_exists.mp h
  have hpred := List.find?_some hq
  rw [updatePaymentStatus_payments_eq, List.find?_map]
  have hcomp : ((fun p : PaymentRow => p.id == paymentId) ∘
      statusUpdateFn status transactionId paymentId) = fun p => p.id == paymentId := by
    funext p
    simp [Function.comp, statusUpdateFn_preserves_id]
  rw [hcomp, hq]
  have hqe : q.id = paymentId := by simpa using hpred
  simp [statusUpdateFn, hqe]

/-- Witness for `updatePaymentStatus_overwrites`: the completed payment
`pay9` is moved back to `pending`. -/
theorem updatePaymentStatus_overwrites_witness :
    ((updatePaymentStatus termDb "pay9" .pending none).1.payments.find?
      (fun p => p.id == "pay9")).map (fun p => p.status) = some .pending :=
  updatePaymentStatus_overwrites termDb "pay9" .pending none rfl

/-- Claim C7: for each of the three payment methods, a `processPayment` call
whose insert is not rejected succeeds, appends exactly one payment row with
status `pending` for the request's order, and returns a redirect URL iff the
method is `stripe`. -/
theorem processPayment_pending_insert (db : PayDb) (request : PaymentRequest)
    (freshId : String)
    (h : db.payments.any (fun p => p.id == freshId) = false) :
    (processPayment db request freshId).2.success = true ∧
    (processPayment db request freshId).1.payments =
      db.payments ++ [insertedPaymentRow request request.paymentMethod freshId] ∧
    (insertedPaymentRow request request.paymentMethod freshId).status = .pending ∧
    (insertedPaymentRow request request.paymentMethod freshId).order_id =
      request.orderId ∧
    ((processPayment db request freshId).2.redirectUrl.isSome ↔
      request.paymentMethod = .stripe) := by
  cases hm : request.paymentMethod <;>
    simp [processPayment, processOrangeMoneyPayment, processAfriMoneyPayment,
      processStripePayment, updateOrderPaymentStatus, h, hm, insertedPaymentRow]

/-- Witness for `processPayment_pending_insert`: a stripe request yields a
redirect, an orange-money request succeeds without one. -/
theorem processPayment_pending_insert_witness :
    ((processPayment payDb0 stripeReq "p1").2.redirectUrl.isSome ↔
      stripeReq.paymentMethod = .stripe) ∧
    (processPayment payDb0 orangeReq "p2").2.success = true ∧
    ((processPayment payDb0 orangeReq "p2").2.redirectUrl.isSome ↔
      orangeReq.paymentMethod = .stripe) :=
  ⟨(processPayment_pending_insert payDb0 stripeReq "p1" rfl).2.2.2.2,
   (processPayment_pending_insert payDb0 orangeReq "p2" rfl).1,
   (processPayment_pending_insert payDb0 orangeReq "p2" rfl).2.2.2.2⟩

/-- Claim C10: `checkPaymentStatus` is total by construction, and whenever
the payment-row lookup fails — a transient read error or a nonexistent id —
it answers status `failed` (never `pending`), the same status an actually
failed payment produces, so the two are indistinguishable to the caller. -/
theorem checkPaymentStatus_error_to_failed (db : PayDb) (paymentId : String)
    (lookupFails : Bool)
    (h : lookupFails = true ∨ db.payments.find? (fun p => p.id == paymentId) = none) :
    (checkPaymentStatus db paymentId lookupFails).status = .failed ∧
    (checkPaymentStatus db paymentId lookupFails).status ≠ .pending ∧
    ∀ failedRow : PaymentRow, failedRow.status = .failed →
      (checkPaymentStatus
          { payments := [failedRow], orderPaymentStatus := db.orderPaymentStatus }
          failedRow.id false).status =
        (checkPaymentStatus db paymentId lookupFails).status := by
  have hmain : (checkPaymentStatus db paymentId lookupFails).status = .failed := by
    cases h with
    | inl h1 => simp [checkPaymentStatus, h1]
    | inr h2 =>
      cases hl : lookupFails with
      | true => simp [checkPaymentStatus]
      | false => simp [checkPaymentStatus, h2]
  refine ⟨hmain, by rw [hmain]; exact fun hcon => PayStatus.noConfusion hcon, ?_⟩
  intro failedRow hrow
  rw [hmain]
  simp [checkPaymentStatus, List.find?, hrow]

/-- Witness for `checkPaymentStatus_error_to_failed`: a lookup of a
nonexistent payment id on the empty backend answers `failed`. -/
theorem checkPaymentStatus_error_to_failed_witness :
    (checkPaymentStatus payDb0 "nope" false).status = .failed ∧
    (checkPaymentStatus payDb0 "nope" false).status ≠ .pending :=
  ⟨(checkPaymentStatus_error_to_failed payDb0 "nope" false (Or.inr rfl)).1,
   (checkPaymentStatus_error_to_failed payDb0 "nope" false (Or.inr rfl)).2.1⟩

/-! Order/payment mirroring (claim C3). -/

/-- The payment rows of one order. -/
def paymentsOf (db : PayDb) (orderId : String) : List PaymentRow :=
  db.payments.filter (fun p => p.order_id == orderId)

/-- Payment primary keys are distinct (the database enforces it; the model
carries it as part of the reachable-state invariant). -/
def payIdsNodup (db : PayDb) : Prop :=
  (db.payments.map (fun p => p.id)).Nodup

/-- The mirror property: an order whose only payment row is terminal has
`payment_status` equal to that payment's status. -/
def orderMirrorsSinglePayment (db : PayDb) : Prop :=
  ∀ p : PaymentRow, paymentsOf db p.order_id = [p] →
    p.status.isTerminal = true → db.orderPaymentStatus p.order_id = p.status

/-- The reachable-state invariant of the payment service. -/
def payInvariant (db : PayDb) : Prop :=
  payIdsNodup db ∧ orderMirrorsSinglePayment db

theorem append_singleton_eq {α : Type} {xs : List α} {y z : α}
    (h : xs ++ [y] = [z]) : xs = [] ∧ y = z := by
  cases xs with
  | nil => simpa using h
  | cons a l =>
    have hlen := congrArg List.length h
    simp [List.length_append] at hlen

theorem map_eq_singleton {α β : Type} {f : α → β} {l : List α} {b : β}
    (h : l.map f = [b]) : ∃ a, l = [a] ∧ f a = b := by
  cases l with
  | nil => simp at h
  | cons x xs =>
    cases xs with
    | nil =>
      simp at h
      exact ⟨x, rfl, h⟩
    | cons y ys => simp at h

theorem filter_map_of_pred_comm {α : Type} (f : α → α) (pred : α → Bool)
    (hf : ∀ a, pred (f a) = pred a) (l : List α) :
    (l.map f).filter pred = (l.filter pred).map f := by
  induction l with
  | nil => rfl
  | cons x xs ih =>
    by_cases hx : pred x
    · simp [List.filter_cons, hf, hx, ih]
    · simp [List.filter_cons, hf, hx, ih]

theorem updatePaymentStatus_nodup (db : PayDb) (paymentId : String)
    (status : PayStatus) (transactionId : Option String) (hnd : payIdsNodup db) :
    payIdsNodup (updatePaymentStatus db paymentId status transactionId).1 := by
  unfold payIdsNodup
  rw [updatePaymentStatus_payments_eq, List.map_map]
  have hcomp : ((fun p : PaymentRow => p.id) ∘
      statusUpdateFn status transactionId paymentId) = fun p => p.id := by
    funext p
    simp [Function.comp, statusUpdateFn_preserves_id]
  rw [hcomp]
  exact hnd

theorem updatePaymentStatus_preserves_invariant (db : PayDb) (paymentId : String)
    (status : PayStatus) (transactionId : Option String) (h : payInvariant db) :
    payInvariant (updatePaymentStatus db paymentId status transactionId).1 := by
  obtain ⟨hnd, hmir⟩ := h
  refine ⟨updatePaymentStatus_nodup db paymentId status transactionId hnd, ?_⟩
  intro p hp hterm
  have hpays := updatePaymentStatus_payments_eq db paymentId status transactionId
  have hord := updatePaymentStatus_orderStatus db paymentId status transactionId
  have hmapped : paymentsOf (updatePaymentStatus db paymentId status transactionId).1
      p.order_id =
      (paymentsOf db p.order_id).map (statusUpdateFn status transactionId paymentId) := by
    unfold paymentsOf
    rw [hpays]
    exact filter_map_of_pred_comm _ _
      (fun a => by rw [statusUpdateFn_preserves_order]) _
  cases hfind : (db.payments.map (statusUpdateFn status transactionId paymentId)).find?
      (fun x => x.id == paymentId) with
  | none =>
    simp only [hfind] at hord
    rw [hord]
    have hidm : ∀ x ∈ db.payments, statusUpdateFn status transactionId paymentId x = x := by
      intro x hx
      have hnone := List.find?_eq_none.mp hfind
        (statusUpdateFn status transactionId paymentId x) (List.mem_map_of_mem _ hx)
      rw [statusUpdateFn_preserves_id] at hnone
      exact statusUpdateFn_eq_self _ _ _ _ (by simpa using hnone)
    have hsame : (paymentsOf db p.order_id).map
        (statusUpdateFn status transactionId paymentId) = paymentsOf db p.order_id := by
      have : ∀ x ∈ paymentsOf db p.order_id,
          statusUpdateFn status transactionId paymentId x = x := by
        intro x hx
        exact hidm x (List.mem_of_mem_filter hx)
      calc (paymentsOf db p.order_id).map (statusUpdateFn status transactionId paymentId)
          = (paymentsOf db p.order_id).map id := List.map_congr_left this
        _ = paymentsOf db p.order_id := List.map_id _
    rw [hmapped, hsame] at hp
    exact hmir p hp hterm
  | some payment =>
    have hpm : payment ∈ db.payments.map (statusUpdateFn status transactionId paymentId) :=
      List.mem_of_find?_eq_some hfind
    have hpid := List.find?_some hfind
    have hpstat : payment.status = status := by
      obtain ⟨q, hq, rfl⟩ := List.mem_map.mp hpm
      by_cases hc : q.id == paymentId
      · simp [statusUpdateFn, hc]
      · exfalso
        rw [statusUpdateFn_preserves_id] at hpid
        exact hc hpid
    simp only [hfind] at hord
    rw [hord]
    show (if p.order_id = payment.order_id then status
      else db.orderPaymentStatus p.order_id) = p.status
    by_cases hoc : p.order_id = payment.order_id
    · have hppay : payment ∈ (updatePaymentStatus db paymentId status transactionId).1.payments := by
        rw [hpays]
        exact hpm
      have hpin : payment ∈ paymentsOf
          (updatePaymentStatus db paymentId status transactionId).1 p.order_id := by
        unfold paymentsOf
        rw [List.mem_filter]
        exact ⟨hppay, by simp [hoc]⟩
      rw [hp] at hpin
      have hpe : payment = p := by simpa using hpin
      rw [if_pos hoc, ← hpe, hpstat]
    · rw [if_neg hoc]
      rw [hmapped] at hp
      obtain ⟨q, hql, hfq⟩ := map_eq_singleton hp
      have hqmem : q ∈ db.payments := by
        have hq1 : q ∈ paymentsOf db p.order_id := by
          rw [hql]
          exact List.mem_cons_self _ _
        exact List.mem_of_mem_filter hq1
      by_cases hqc : q.id == paymentId
      · exfalso
        have hpmem : p ∈ (updatePaymentStatus db paymentId status transactionId).1.payments := by
          rw [hpays, ← hfq]
          exact List.mem_map_of_mem _ hqmem
        have hpayM : payment ∈
            (updatePaymentStatus db paymentId status transactionId).1.payments := by
          rw [hpays]
          exact hpm
        have hnd' := updatePaymentStatus_nodup db paymentId status transactionId hnd
        unfold payIdsNodup at hnd'
        have hpidp : p.id = paymentId := by
          rw [← hfq, statusUpdateFn_preserves_id]
          simpa using hqc
        have hpidpay : payment.id = paymentId := by simpa using hpid
        have hpp : p = payment :=
          List.inj_on_of_nodup_map hnd' hpmem hpayM (by rw [hpidp, hpidpay])
        exact hoc (by rw [hpp])
      · have hfqq : statusUpdateFn status transactionId paymentId q = q :=
          statusUpdateFn_eq_self _ _ _ _ (by simpa using hqc)
        have hqp : q = p := by rw [← hfq, hfqq]
        have hsingle : paymentsOf db p.order_id = [p] := by
          rw [hql, hqp]
        exact hmir p hsingle hterm

theorem processPayment_state (db : PayDb) (request : PaymentRequest) (freshId : String) :
    (processPayment db request freshId).1 =
      if db.payments.any (fun p => p.id == freshId) then db
      else
        { payments := db.payments ++ [insertedPaymentRow request request.paymentMethod freshId],
          orderPaymentStatus := fun oid =>
            if oid = request.orderId then .pending else db.orderPaymentStatus oid } := by
  cases hm : request.paymentMethod <;>
    by_cases hdup : db.payments.any (fun p => p.id == freshId) <;>
      simp [processPayment, processOrangeMoneyPayment, processAfriMoneyPayment,
        processStripePayment, hm, hdup, updateOrderPaymentStatus, insertedPaymentRow]

theorem processPayment_preserves_invariant (db : PayDb) (request : PaymentRequest)
    (freshId : String) (h : payInvariant db) :
    payInvariant (processPayment db request freshId).1 := by
  obtain ⟨hnd, hmir⟩ := h
  rw [processPayment_state]
  by_cases hdup : db.payments.any (fun p => p.id == freshId)
  · rw [if_pos hdup]
    exact ⟨hnd, hmir⟩
  · rw [if_neg hdup]
    have hfresh : ∀ p ∈ db.payments, ¬ p.id = freshId := by
      simpa using hdup
    constructor
    · unfold payIdsNodup
      simp only [List.map_append, List.map_cons, List.map_nil]
      rw [List.nodup_append]
      refine ⟨hnd, List.nodup_singleton _, ?_⟩
      intro a ha hb
      obtain ⟨q, hq, rfl⟩ := List.mem_map.mp ha
      have : q.id = freshId := by simpa using hb
      exact hfresh q hq this
    · intro p hp hterm
      unfold paymentsOf at hp
      simp only [List.filter_append] at hp
      by_cases hrow : (insertedPaymentRow request request.paymentMethod freshId).order_id
          == p.order_id
      · rw [show List.filter (fun x => x.order_id == p.order_id)
              [insertedPaymentRow request request.paymentMethod freshId] =
            [insertedPaymentRow request request.paymentMethod freshId] by
            simp [List.filter_cons, hrow]] at hp
        obtain ⟨-, hrp⟩ := append_singleton_eq hp
        exfalso
        have : p.status = .pending := by
          rw [← hrp]
          rfl
        rw [this] at hterm
        exact Bool.false_ne_true hterm
      · rw [show List.filter (fun x => x.order_id == p.order_id)
              [insertedPaymentRow request request.paymentMethod freshId] =
            ([] : List PaymentRow) by simp [List.filter_cons, hrow]] at hp
        rw [List.append_nil] at hp
        have hne : ¬ p.order_id = request.orderId := by
          intro he
          apply hrow
          show (request.orderId == p.order_id) = true
          simp [he]
        show (if p.order_id = request.orderId then PayStatus.pending
          else db.orderPaymentStatus p.order_id) = p.status
        rw [if_neg hne]
        exact hmir p hp hterm

theorem payStep_preserves_invariant (db : PayDb) (op : PayOp)
    (h : payInvariant db) : payInvariant (payStep db op) := by
  cases op with
  | process request freshId => exact processPayment_preserves_invariant db request freshId h
  | update paymentId status transactionId =>
    exact updatePaymentStatus_preserves_invariant db paymentId status transactionId h
  | simulate paymentId success now =>
    show payInvariant (simulatePaymentCompletion db paymentId success now).1
    unfold simulatePaymentCompletion
    exact updatePaymentStatus_preserves_invariant db paymentId _ _ h

theorem runPay_invariant (f : String → PayStatus) (ops : List PayOp) :
    payInvariant (runPay { payments := [], orderPaymentStatus := f } ops) := by
  have hbase : payInvariant { payments := [], orderPaymentStatus := f } := by
    constructor
    · exact List.nodup_nil
    · intro p hp hterm
      unfold paymentsOf at hp
      simp at hp
  unfold runPay
  generalize hdb : ({ payments := [], orderPaymentStatus := f } : PayDb) = db0
  rw [hdb] at hbase
  clear hdb
  induction ops generalizing db0 with
  | nil => exact hbase
  | cons op rest ih =>
    exact ih (payStep db0 op) (payStep_preserves_invariant db0 op hbase)

/-- Claim C3 (amended): every `updatePaymentStatus` call on an existing
payment also sets the parent order's `payment_status` to the written status,
so in every backend state reachable by payment-service calls from a
payment-free state, an order whose single payment row is terminal has
`payment_status` equal to that payment's status.  (When retries insert a
second payment row for the same order, an older terminal payment need not
match the order's `payment_status`; see the counterexample.) -/
theorem order_payment_status_mirror :
    (∀ (db : PayDb) (paymentId : String) (status : PayStatus)
        (transactionId : Option String) (payment : PaymentRow),
        db.payments.find? (fun p => p.id == paymentId) = some payment →
        (updatePaymentStatus db paymentId status transactionId).1.orderPaymentStatus
          payment.order_id = status) ∧
    (∀ (f : String → PayStatus) (ops : List PayOp),
        orderMirrorsSinglePayment (runPay { payments := [], orderPaymentStatus := f } ops)) := by
  constructor
  · intro db paymentId status transactionId payment hfind
    have hord := updatePaymentStatus_orderStatus db paymentId status transactionId
    have hfind1 : (db.payments.map (statusUpdateFn status transactionId paymentId)).find?
        (fun p => p.id == paymentId) =
        some (statusUpdateFn status transactionId paymentId payment) := by
      rw [List.find?_map]
      have hcomp : ((fun p : PaymentRow => p.id == paymentId) ∘
          statusUpdateFn status transactionId paymentId) = fun p => p.id == paymentId := by
        funext p
        simp [Function.comp, statusUpdateFn_preserves_id]
      rw [hcomp, hfind]
      rfl
    simp only [hfind1] at hord
    rw [hord]
    simp [statusUpdateFn_preserves_order]
  · intro f ops
    exact (runPay_invariant f ops).2

/-- The retry trace of the counterexample: the first payment of `order1`
fails terminally, then a retry inserts a second pending payment. -/
def mirrorCexOps : List PayOp :=
  [.process orangeReq "pay1", .update "pay1" .failed none, .process orangeReq "pay2"]

/-- Counterexample to claim C3 as stated: after the retry trace, payment
`pay1` of `order1` is in the terminal state `failed` while the order's
`payment_status` is `pending` (set by the retry's insert), so the order does
not mirror its terminal payment. -/
theorem order_payment_mirror_cex :
    ((runPay payDb0 mirrorCexOps).payments.find? (fun p => p.id == "pay1")).map
      (fun p => (p.order_id, p.status)) = some ("order1", .failed) ∧
    PayStatus.isTerminal .failed = true ∧
    (runPay payDb0 mirrorCexOps).orderPaymentStatus "order1" = .pending := by
  refine ⟨rfl, rfl, rfl⟩

/-- The two-call trace of the mirror witness. -/
def mirrorOps : List PayOp :=
  [.process orangeReq "pay1", .update "pay1" .completed (some "t1")]

/-- The single payment row of `order1` after `mirrorOps`. -/
def mirrorRowP : PaymentRow :=
  { id := "pay1", order_id := "order1", payment_method := .orange_money,
    amount := 100, currency := "SLL", status := .completed,
    transaction_id := some "t1", customer_name := "Abu",
    customer_email := "abu@example.com", customer_phone := "07712345" }

/-- A pending payment row used by the first witness conjunct. -/
def pendingRow : PaymentRow :=
  { id := "pay1", order_id := "order1", payment_method := .orange_money,
    amount := 100, currency := "SLL", status := .pending,
    transaction_id := none, customer_name := "Abu",
    customer_email := "abu@example.com", customer_phone := "07712345" }

/-- The backend holding exactly the pending payment. -/
def oneDb : PayDb :=
  { payments := [pendingRow], orderPaymentStatus := fun _ => .pending }

/-- Witness for `order_payment_status_mirror`: completing the only payment of
`order1` marks the order completed, both for a direct `updatePaymentStatus`
call and along the service trace `mirrorOps`. -/
theorem order_payment_status_mirror_witness :
    (updatePaymentStatus oneDb "pay1" .completed none).1.orderPaymentStatus "order1" =
      PayStatus.completed ∧
    (runPay { payments := [], orderPaymentStatus := fun _ => .pending } mirrorOps).orderPaymentStatus
      "order1" = PayStatus.completed :=
  ⟨order_payment_status_mirror.1 oneDb "pay1" .completed none pendingRow rfl,
   order_payment_status_mirror.2 (fun _ => .pending) mirrorOps mirrorRowP rfl rfl⟩

/-! ### Payment screen polling (`PaymentProcessor` component)

The component registers `setInterval(checkPaymentStatus, 3000)` in an effect
that depends on `paymentId`; the effect cleanup (`clearInterval`) runs when
the component unmounts or when `paymentId` changes.  `checkPaymentStatus`
updates the displayed status; its terminal branches invoke the
`onSuccess`/`onError` callbacks and show a toast but do not clear the
interval.  The component is modelled as a state machine over these events. -/

/-- The poll period passed to `setInterval`, in milliseconds. -/
def pollIntervalMs : Nat := 3000

/-- The component state: mount flag, current `paymentId`, whether the
interval timer is registered, and the last observed payment status. -/
structure ProcState where
  mounted : Bool
  paymentId : Option String
  timerActive : Bool
  paymentStatus : Option PayStatus
  deriving Repr, DecidableEq

/-- Component events: a `setPaymentId` state update (whose effect re-run
clears the previous interval and registers a new one iff the id is present),
an interval tick delivering a freshly read status, and unmount. -/
inductive ProcEvent where
  | setPaymentId (p : Option String)
  | pollTick (s : PayStatus)
  | unmount
  deriving Repr, DecidableEq

/-- One event step of the component. -/
def procStep (st : ProcState) : ProcEvent → ProcState
  | .setPaymentId p =>
    if st.mounted then { st with paymentId := p, timerActive := p.isSome } else st
  | .pollTick s =>
    if st.mounted && st.timerActive && st.paymentId.isSome then
      { st with paymentStatus := some s }
    else st
  | .unmount => { st with mounted := false, timerActive := false }

/-- The freshly mounted component: no payment initiated, no timer. -/
def initProcState : ProcState :=
  { mounted := true, paymentId := none, timerActive := false, paymentStatus := none }

/-- Run the component over a sequence of events. -/
def procRun (events : List ProcEvent) : ProcState :=
  events.foldl procStep initProcState

/-- Counterexample to claim C5 as stated: after a payment is initiated and a
poll observes the terminal status `completed`, the component is still
mounted and the interval timer is still registered — observing a terminal
state does not cancel the poll. -/
theorem poll_timer_terminal_cex :
    (procRun [.setPaymentId (some "pay1"), .pollTick .completed]).paymentStatus =
      some .completed ∧
    PayStatus.isTerminal .completed = true ∧
    (procRun [.setPaymentId (some "pay1"), .pollTick .completed]).mounted = true ∧
    (procRun [.setPaymentId (some "pay1"), .pollTick .completed]).timerActive = true := by
  refine ⟨rfl, rfl, rfl, rfl⟩

/-- Claim C5 (amended): the payment-status poll fires at the fixed 3000 ms
interval, and in every reachable component state the timer is registered
exactly while the component is mounted with a `paymentId` present — i.e. it
is cancelled exactly on teardown or when `paymentId` changes (retry resets
it to null); observing a terminal payment status does not cancel it. -/
theorem poll_timer_lifecycle :
    pollIntervalMs = 3000 ∧
    ∀ events : List ProcEvent,
      (procRun events).timerActive =
        ((procRun events).mounted && (procRun events).paymentId.isSome) := by
  refine ⟨rfl, ?_⟩
  intro events
  have hgen : ∀ (es : List ProcEvent) (st : ProcState),
      st.timerActive = (st.mounted && st.paymentId.isSome) →
      (es.foldl procStep st).timerActive =
        ((es.foldl procStep st).mounted && (es.foldl procStep st).paymentId.isSome) := by
    intro es
    induction es with
    | nil => exact fun st h => h
    | cons e rest ih =>
      intro st h
      refine ih (procStep st e) ?_
      cases e with
      | setPaymentId p =>
        by_cases hm : st.mounted
        · simp [procStep, hm]
        · simpa [procStep, hm] using h
      | pollTick s =>
        by_cases hc : st.mounted && st.timerActive && st.paymentId.isSome
        · simpa [procStep, hc] using h
        · simpa [procStep, hc] using h
      | unmount => simp [procStep]
  exact hgen events initProcState rfl

/-! ### Public product listing (`fetchProducts` on the products page)

The primary query selects active products with their embedded vendor and
filters `.not('vendors', 'is', null)`, then the client drops any remaining
null-vendor rows.  Row-level security lets a public reader see a vendor row
only under the policy "Everyone can view verified vendors"
(`verification_status = 'verified'`), so the vendor embed of a product whose
owner is unverified resolves to null.  If the primary query errors, a
fallback re-runs it without the vendor filter and stores the rows as-is. -/

/-- The vendor verification tri-state. -/
inductive VerifStatus where
  | pending
  | verified
  | rejected
  deriving Repr, DecidableEq

/-- A row of `public.vendors` (the columns the listing touches). -/
structure Vendor where
  id : String
  user_id : String
  business_name : String
  location : Option String
  verification_status : VerifStatus
  deriving Repr, DecidableEq

/-- A row of `public.products` (the columns the listing touches). -/
structure Product where
  id : String
  vendor_id : String
  category_id : String
  name : String
  description : Option String
  price : ℚ
  unit : String
  stock_quantity : ℤ
  image_url : Option String
  is_active : Bool
  deriving Repr, DecidableEq

/-- The vendors and products tables. -/
structure CatalogDb where
  vendors : List Vendor
  products : List Product
  deriving Repr, DecidableEq

/-- RLS SELECT policy "Everyone can view verified vendors", as it applies to
a public (anonymous, non-owner, non-admin) reader. -/
def publiclyVisibleVendor (v : Vendor) : Bool :=
  v.verification_status == .verified

/-- One row of the listing result: the product with its vendor embed
(`vendors (business_name, location)`), null when RLS hides the owner. -/
structure ProductRow where
  product : Product
  vendors : Option Vendor
  deriving Repr, DecidableEq

/-- The embedded vendor of a product for a public reader: the owning vendor
row if RLS exposes it. -/
def embedVendor (db : CatalogDb) (p : Product) : Option Vendor :=
  (db.vendors.filter publiclyVisibleVendor).find? (fun v => v.id == p.vendor_id)

/-- `fetchProducts` for a public reader.  `primaryQueryFails` selects the
catch branch, whose fallback query keeps `eq('is_active', true)` but drops
both the server-side `.not('vendors', 'is', null)` filter and the
client-side null-vendor filter. -/
def fetchProducts (db : CatalogDb) (primaryQueryFails : Bool) : List ProductRow :=
  let rows := (db.products.filter (fun p => p.is_active)).map
    (fun p => { product := p, vendors := embedVendor db p })
  if primaryQueryFails then rows
  else rows.filter (fun r => r.vendors.isSome)

/-- The catalog of the counterexample: one active product owned by a vendor
whose verification status is `pending`. -/
def listingCexDb : CatalogDb :=
  { vendors := [{ id := "v1", user_id := "u1", business_name := "Farm",
                  location := none, verification_status := .pending }],
    products := [{ id := "prod1", vendor_id := "v1", category_id := "c1",
                   name := "Tomatoes", description := none, price := 5,
                   unit := "kg", stock_quantity := 10, image_url := none,
                   is_active := true }] }

/-- Counterexample to claim C4 as stated: when the primary query fails, the
fallback serves product `prod1` although its owning vendor `v1` is not
verified (the vendor embed is null and no filter removes the row). -/
theorem fetchProducts_fallback_cex :
    (fetchProducts listingCexDb true).map (fun r => r.product.id) = ["prod1"] ∧
    (fetchProducts listingCexDb true).map (fun r => r.vendors) = [none] ∧
    listingCexDb.vendors.find? (fun v => v.id == "v1") =
      some { id := "v1", user_id := "u1", business_name := "Farm",
             location := none, verification_status := .pending } ∧
    VerifStatus.pending ≠ VerifStatus.verified := by
  refine ⟨rfl, rfl, rfl, fun hcon => VerifStatus.noConfusion hcon⟩

/-- Claim C4 (amended): on the primary (non-error) path, every row served by
the public product listing carries a vendor embed, that embedded vendor is
verified, and — vendor ids being unique — it is the product's owning vendor,
so a product of an unverified vendor never appears; the error fallback drops
the vendor filter and can serve such products. -/
theorem fetchProducts_primary_only_verified (db : CatalogDb) (row : ProductRow)
    (hnd : (db.vendors.map (fun v => v.id)).Nodup)
    (hr : row ∈ fetchProducts db false) :
    ∃ v : Vendor, row.vendors = some v ∧ v ∈ db.vendors ∧
      v.id = row.product.vendor_id ∧ v.verification_status = .verified ∧
      ∀ w ∈ db.vendors, w.id = row.product.vendor_id → w = v := by
  unfold fetchProducts at hr
  rw [if_neg (by simp)] at hr
  have hr1 := List.mem_filter.mp hr
  obtain ⟨hmem, hsome⟩ := hr1
  obtain ⟨p, hp, hrow⟩ := List.mem_map.mp hmem
  obtain ⟨v, hv⟩ := Option.isSome_iff_exists.mp (by
    rw [← hrow] at hsome
    simpa using hsome)
  have hveq : row.vendors = some v := by rw [← hrow]; exact hv
  have hfind : (db.vendors.filter publiclyVisibleVendor).find?
      (fun w => w.id == p.vendor_id) = some v := hv
  have hvmemf : v ∈ db.vendors.filter publiclyVisibleVendor :=
    List.mem_of_find?_eq_some hfind
  have hvmem : v ∈ db.vendors := List.mem_of_mem_filter hvmemf
  have hvvis : publiclyVisibleVendor v = true := List.of_mem_filter hvmemf
  have hvid : v.id = p.vendor_id := by
    have := List.find?_some hfind
    simpa using this
  have hpid : row.product = p := by rw [← hrow]
  refine ⟨v, hveq, hvmem, by rw [hpid]; exact hvid, by simpa [publiclyVisibleVendor] using hvvis, ?_⟩
  intro w hw hwid
  refine List.inj_on_of_nodup_map hnd hw hvmem ?_
  rw [hwid, hvid, hpid]

/-- The catalog of the witness: the verified vendor `v2` owns the active
product `prod2`. -/
def listingOkDb : CatalogDb :=
  { vendors := [{ id := "v2", user_id := "u2", business_name := "Green",
                  location := some "Bo", verification_status := .verified }],
    products := [{ id := "prod2", vendor_id := "v2", category_id := "c1",
                   name := "Rice", description := none, price := 8,
                   unit := "bag", stock_quantity := 3, image_url := none,
                   is_active := true }] }

/-- Witness for `fetchProducts_primary_only_verified`: the one row the
primary listing of `listingOkDb` serves embeds the verified vendor `v2`. -/
theorem fetchProducts_primary_only_verified_witness :
    ∃ v : Vendor,
      (fetchProducts listingOkDb false).head?.map (fun r => r.vendors) =
        some (some v) ∧ v.verification_status = .verified := by
  obtain ⟨row, hrow⟩ : ∃ row, (fetchProducts listingOkDb false) = [row] := ⟨_, rfl⟩
  obtain ⟨v, hv1, _, _, hv4, -⟩ :=
    fetchProducts_primary_only_verified listingOkDb row (by simp [listingOkDb])
      (by rw [hrow]; exact List.mem_cons_self _ _)
  exact ⟨v, by rw [hrow]; simp [hv1], hv4⟩

/-! ### The `orders.payment_status` CHECK constraint

From the orders/order_items/payments DDL script:
`payment_status TEXT DEFAULT 'pending' CHECK (payment_status IN ('pending',
'completed', 'failed', 'cancelled'))`.  (An earlier migration in
`supabase/migrations` created an orders table whose check lists only
`pending/completed/failed` and whose column set lacks the customer fields
the checkout inserts; the DDL script's table — the one the application
works against — is the effective schema, and its script is a no-op when
re-run thanks to `IF NOT EXISTS`.) -/

/-- The `payment_status` column of an orders row. -/
structure OrderPaymentStatusRow where
  payment_status : String
  deriving Repr, DecidableEq

/-- The CHECK predicate of `orders.payment_status` in the effective schema. -/
def ordersPaymentStatusCheck (s : String) : Bool :=
  s == "pending" || s == "completed" || s == "failed" || s == "cancelled"

/-- The CHECK predicate of the superseded migration
(`20250724185430-...sql` line 70), kept for reference: it omits
`'cancelled'`. -/
def ordersPaymentStatusCheckOld (s : String) : Bool :=
  s == "pending" || s == "completed" || s == "failed"

/-- Writing `payment_status`: the database stores the value iff the CHECK
constraint accepts it. -/
def setOrderPaymentStatusChecked (row : OrderPaymentStatusRow) (s : String) :
    Option OrderPaymentStatusRow :=
  if ordersPaymentStatusCheck s then some { row with payment_status := s } else none

/-- Claim C6: `orders.payment_status` can hold exactly the values `pending`,
`completed`, `failed`, `cancelled`: each of them can be stored (and is stored
verbatim), and every other string is rejected by the CHECK constraint. -/
theorem orders_payment_status_values (row : OrderPaymentStatusRow) (s : String) :
    ((setOrderPaymentStatusChecked row s).isSome ↔
      s = "pending" ∨ s = "completed" ∨ s = "failed" ∨ s = "cancelled") ∧
    ∀ row' : OrderPaymentStatusRow,
      setOrderPaymentStatusChecked row s = some row' → row'.payment_status = s := by
  constructor
  · constructor
    · intro h
      by_cases hc : ordersPaymentStatusCheck s
      · simp [ordersPaymentStatusCheck] at hc
        tauto
      · rw [setOrderPaymentStatusChecked, if_neg hc] at h
        simp at h
    · intro h
      have hc : ordersPaymentStatusCheck s = true := by
        simp [ordersPaymentStatusCheck]
        rcases h with h | h | h | h <;> simp [h]
      rw [setOrderPaymentStatusChecked, if_pos hc]
      rfl
  · intro row' h
    by_cases hc : ordersPaymentStatusCheck s
    · rw [setOrderPaymentStatusChecked, if_pos hc] at h
      cases h
      rfl
    · rw [setOrderPaymentStatusChecked, if_neg hc] at h
      cases h

/-- Witness for `orders_payment_status_values`: `cancelled` is storable and
stored verbatim; `refunded` is rejected. -/
theorem orders_payment_status_values_witness :
    (setOrderPaymentStatusChecked { payment_status := "pending" } "cancelled").isSome ∧
    ¬ (setOrderPaymentStatusChecked { payment_status := "pending" } "refunded").isSome :=
  ⟨(orders_payment_status_values { payment_status := "pending" } "cancelled").1.mpr
      (Or.inr (Or.inr (Or.inr rfl))),
   fun h =>
    by
      have := (orders_payment_status_values { payment_status := "pending" } "refunded").1.mp h
      simp at this⟩

/-! ### Checkout order items (`onSubmit` of the checkout page)

The submitted order items are
`state.items.map(item => ({ order_id, product_id: item.productId,
quantity: item.quantity, unit_price: item.price,
subtotal: item.price * item.quantity }))` — built from the cart alone, with
no read of the products table, so the stored price is the cart-captured one
whatever the product's live price is at or after order time. -/

/-- A row inserted into `public.order_items` at checkout. -/
structure OrderItemInsert where
  order_id : String
  product_id : String
  quantity : ℤ
  unit_price : ℚ
  subtotal : ℚ
  deriving Repr, DecidableEq

/-- The order-item rows built by `onSubmit` from the cart state. -/
def checkoutOrderItems (orderId : String) (items : List CartItem) :
    List OrderItemInsert :=
  items.map (fun item =>
    { order_id := orderId, product_id := item.productId,
      quantity := item.quantity, unit_price := item.price,
      subtotal := item.price * (item.quantity : ℚ) })

/-- Claim C8: the order item inserted for the k-th cart item stores the
cart-captured unit price and quantity and a subtotal equal to unit price
times quantity; the construction takes no product-table input, so the result
is independent of any live product price. -/
theorem checkoutOrderItems_capture (orderId : String) (items : List CartItem)
    (k : Nat) (item : CartItem) (h : items[k]? = some item) :
    (checkoutOrderItems orderId items).length = items.length ∧
    (checkoutOrderItems orderId items)[k]? =
      some { order_id := orderId, product_id := item.productId,
             quantity := item.quantity, unit_price := item.price,
             subtotal := item.price * (item.quantity : ℚ) } := by
  constructor
  · simp [checkoutOrderItems]
  · simp [checkoutOrderItems, List.getElem?_map, h]

/-- A cart line used by the checkout witness. -/
def witnessItem : CartItem :=
  { id := "prod1-1", productId := "prod1", name := "Tomatoes", price := 5,
    unit := "kg", quantity := 3, image_url := none, vendorId := "v1",
    vendorName := "Farm", maxStock := 10 }

/-- Witness for `checkoutOrderItems_capture` at a one-line cart. -/
theorem checkoutOrderItems_capture_witness :
    (checkoutOrderItems "ord1" [witnessItem])[0]? =
      some { order_id := "ord1", product_id := "prod1", quantity := 3,
             unit_price := 5, subtotal := (5 : ℚ) * ((3 : ℤ) : ℚ) } :=
  (checkoutOrderItems_capture "ord1" [witnessItem] 0 witnessItem rfl).2

end AgriConnect
